import Mathlib

/-!
# DocuSense ingestion pipeline: a shallow embedding

This file embeds the core of the DocuSense incremental-ingestion pipeline in
Lean and proves properties of it.  Python strings are modelled as `List Char`;
external effects (Graph API calls, the search index, the embedding service,
the service-bus queue, the file system) are modelled as oracle parameters, and
each modelled function returns the effects it performs (index writes, index
deletes, temp-file lifecycle, tracker updates) as data.

Sources embedded:
* `docusense-backend/ingest_local.py` (`chunk_text`),
* `docusense-backend/embedding.py` (`embed_text`),
* `docusense-backend/webhook_handler.py` (namespace `WH`),
* `docusense-backend/azure_function_webhook_enhanced.py` (namespace `Enh`),
* `docusense-functions/large_file_handler.py` (namespace `LF`),
* `docusense-backend/queue_based_processor.py` (namespace `QP`).
-/

namespace DocuSense

/-- A Python `str`, modelled as its sequence of characters. -/
abbrev PyStr := List Char

/-- Coerce a Lean string literal to a `PyStr`. -/
def pys (s : String) : PyStr := s.toList

/-- The negation of `Char.isWhitespace`, the word-character predicate used by
`str.split()`. -/
def notWS (c : Char) : Bool := !c.isWhitespace

/-- Python `text.split()` (no separator argument): split on runs of
whitespace, discarding empty pieces. -/
def pySplit : PyStr → List PyStr
  | [] => []
  | c :: cs =>
    if c.isWhitespace then pySplit cs
    else (c :: cs.takeWhile notWS) :: pySplit (cs.dropWhile notWS)
termination_by s => s.length
decreasing_by
  · simp_wf
  · simp_wf; exact Nat.lt_succ_of_le (List.dropWhile_suffix notWS).length_le

/-- Python `" ".join(ws)`. -/
def joinSpace : List PyStr → PyStr
  | [] => []
  | [w] => w
  | w :: ws => w ++ ' ' :: joinSpace ws

/-- Python `s.strip()`: remove leading and trailing whitespace. -/
def pyStrip (s : PyStr) : PyStr :=
  ((s.dropWhile Char.isWhitespace).reverse.dropWhile Char.isWhitespace).reverse

/-- Python `s.lower()` (character-wise lowering). -/
def pyLower (s : PyStr) : PyStr := s.map Char.toLower

/-- Index of the last `'.'` in the string, if any (`i` is the index of the
head of the current suffix). -/
def lastDotAux : PyStr → Nat → Option Nat
  | [], _ => none
  | c :: cs, i =>
    match lastDotAux cs (i + 1) with
    | some j => some j
    | none => if c = '.' then some i else none

/-- The extension component of Python `os.path.splitext(p)[1]` for a plain
file name (no path separators): everything from the last dot on, unless every
character before that dot is itself a dot (so `".bashrc"` has no extension). -/
def py_splitext_ext (p : PyStr) : PyStr :=
  match lastDotAux p 0 with
  | none => []
  | some d => if (p.take d).any (fun c => c ≠ '.') then p.drop d else []

/-- `ingest_local.chunk_text`, word-list stage: walk the word list in steps of
300 (the default `size`, the only value the repository uses), joining each
slice with single spaces; a slice is yielded together with `i // size` only if
its text strips to something non-empty. -/
def chunkAux : List PyStr → Nat → List (PyStr × Nat)
  | [], _ => []
  | w :: ws, i =>
    let chunk := joinSpace ((w :: ws).take 300)
    let rest := chunkAux ((w :: ws).drop 300) (i + 300)
    if pyStrip chunk ≠ [] then (chunk, i / 300) :: rest else rest
termination_by ws _ => ws.length
decreasing_by simp_wf; omega

/-- `ingest_local.chunk_text(text)`: `words = text.split()` then chunking in
300-word slices with zero-based chunk indices. -/
def chunk_text (text : PyStr) : List (PyStr × Nat) := chunkAux (pySplit text) 0

/-- An embedding vector (the payload of the external embedding service). -/
abbrev EmbVec := List ℚ

/-- `embedding.py`: the fallback mock embedding `[0.1] * 1536`. -/
def mock_embedding : EmbVec := List.replicate 1536 (1 / 10 : ℚ)

/-- `embedding.embed_text`: call the external embedding service (the oracle
`api`); on any failure the exception is caught, logged, and the fixed mock
embedding is returned.  The function never raises. -/
def embed_text (api : PyStr → Option EmbVec) (text : PyStr) : EmbVec :=
  match api text with
  | some v => v
  | none => mock_embedding

/-- A Graph change notification, reduced to the field the handlers inspect. -/
structure Notification where
  clientState : Option PyStr
deriving DecidableEq, Repr

/-- An HTTP response body: plain text, or a JSON object with string fields
(the shape both handlers produce). -/
inductive Body where
  | text (s : PyStr)
  | jsonObj (fields : List (PyStr × PyStr))
deriving DecidableEq, Repr

/-- An HTTP response. -/
structure Resp where
  status : Nat
  body : Body
deriving DecidableEq, Repr

/-- The in-process idempotency cache `processed_files_cache`: a Python dict
from key strings to the stored `lastModifiedDateTime` (which may be `None`).
Insertion prepends, so `cache_get` sees the latest write, like dict update. -/
abbrev Cache := List (String × Option String)

/-- Python `cache.get(key)`: `None` both for a missing key and for a stored
`None`. -/
def cache_get (c : Cache) (k : String) : Option String := (List.lookup k c).join

/-- One item of a Graph delta response, reduced to the fields the handlers
inspect.  `deleted` / `file` model presence of the corresponding facets. -/
structure DeltaItem where
  id : String
  deleted : Bool
  file : Bool
  lastModifiedDateTime : Option String
deriving DecidableEq, Repr

/-- One page of a drive delta response: the `value` array and the optional
`@odata.nextLink`. -/
structure DeltaPage where
  value : List DeltaItem
  nextLink : Option String
deriving DecidableEq, Repr

/-- The delta endpoint URL built by both handlers. -/
def delta_url (driveId : String) : String :=
  "https://graph.microsoft.com/v1.0/drives/" ++ driveId ++ "/root/delta"

/-- Modelled from the spec (§4.2, §6): the full change set of a delta cycle is
obtained by following the server-provided next-page link until it is absent.
`fuel` bounds the page chain.  This definition follows the spec's words; it is
the reference the code's delta resolver is compared against. -/
def spec_delta_change_set (fetch : String → Option DeltaPage) : Nat → String → List DeltaItem
  | 0, _ => []
  | fuel + 1, url =>
    match fetch url with
    | none => []
    | some page =>
      page.value ++
        (match page.nextLink with
         | some nxt => spec_delta_change_set fetch fuel nxt
         | none => [])

/-- All words are non-empty and whitespace-free (what `pySplit` produces). -/
def GoodWords (ws : List PyStr) : Prop :=
  ∀ w ∈ ws, w ≠ [] ∧ ∀ c ∈ w, c.isWhitespace = false

namespace WH

/-- `webhook_handler.py`: the subset of a Graph `get_file_info` result that
`ingest_single_file` reads. -/
structure FileInfo where
  name : PyStr
  lastModifiedDateTime : Option String
deriving DecidableEq, Repr

/-- The extension allow-list of `webhook_handler.ingest_single_file`. -/
def supported_extensions : List PyStr := [pys ".pdf", pys ".docx", pys ".pptx", pys ".txt"]

/-- A search-index document as built by `webhook_handler.ingest_single_file`. -/
structure Doc where
  id : String
  title : PyStr
  content : PyStr
  chunk : Nat
  vector : EmbVec
  source_drive_id : String
  source_item_id : String
  last_modified : Option String
deriving DecidableEq, Repr

/-- Oracles for the external effects of one `ingest_single_file` run:
Graph file info, download result (`none` = download failed), the text the
extractor returns for the downloaded file, the doc ids the deletion search
finds, the embedding-service outcome per chunk, and whether the index upload
succeeds (an unsuccessful upload raises). -/
structure IngestEnv where
  fileInfo : Option FileInfo
  downloadPath : Option String
  extractedText : PyStr
  existingDocIds : List String
  embedApi : PyStr → Option EmbVec
  uploadOk : Bool

/-- The observable effects of one `ingest_single_file` run. `uploads` are the
documents submitted to `upload_documents` (attempted index writes); `raised`
records that an exception reached the outer handler. -/
structure IngestEffects where
  tempCreated : Bool
  tempDeleted : Bool
  deletes : List String
  uploads : List Doc
  raised : Bool
deriving DecidableEq, Repr

/-- The effects of a run that returns before creating the temp file. -/
def noEffects : IngestEffects :=
  { tempCreated := false, tempDeleted := false, deletes := [], uploads := [], raised := false }

/-- The chunk loop of `webhook_handler.ingest_single_file` (lines 190-208):
one document per chunk.  The per-chunk `except` is unreachable because
`embed_text` handles its own failures (embedding.py lines 22-25), so no chunk
is ever dropped here. -/
def build_docs (api : PyStr → Option EmbVec) (driveId itemId : String)
    (fileName : PyStr) (lastModified : Option String) (content : PyStr) : List Doc :=
  (chunk_text content).map fun sc =>
    { id := driveId ++ "_" ++ itemId ++ "_" ++ toString sc.2
      title := fileName
      content := sc.1
      chunk := sc.2
      vector := embed_text api sc.1
      source_drive_id := driveId
      source_item_id := itemId
      last_modified := lastModified }

/-- `webhook_handler.ingest_single_file` (lines 149-219).  Branches in source
order: missing file info → return; unsupported extension → return; download
failure → return; empty extracted text → unlink temp and return; otherwise
delete existing chunks, build and upload the new docs, then unlink the temp.
There is no `finally`: when `upload_documents` raises, the outer `except`
catches it and the temp file is NOT unlinked. -/
def ingest_single_file (env : IngestEnv) (driveId itemId : String) : IngestEffects :=
  match env.fileInfo with
  | none => noEffects
  | some info =>
    if pyLower (py_splitext_ext info.name) ∈ supported_extensions then
      match env.downloadPath with
      | none => noEffects
      | some _ =>
        if pyStrip env.extractedText = [] then
          { noEffects with tempCreated := true, tempDeleted := true }
        else
          let dels := env.existingDocIds
          let docs := build_docs env.embedApi driveId itemId info.name
            info.lastModifiedDateTime env.extractedText
          if docs ≠ [] then
            if env.uploadOk then
              { tempCreated := true, tempDeleted := true, deletes := dels,
                uploads := docs, raised := false }
            else
              { tempCreated := true, tempDeleted := false, deletes := dels,
                uploads := docs, raised := true }
          else
            { tempCreated := true, tempDeleted := true, deletes := dels,
              uploads := [], raised := false }
    else noEffects

/-- `webhook_handler.is_already_processed`: exact equality between the cached
timestamp (`None` when absent) and the record's timestamp. -/
def is_already_processed (c : Cache) (driveId itemId : String) (lm : Option String) : Bool :=
  cache_get c (driveId ++ "_" ++ itemId) == lm

/-- `webhook_handler.mark_as_processed`: unconditional overwrite. -/
def mark_as_processed (c : Cache) (driveId itemId : String) (lm : Option String) : Cache :=
  (driveId ++ "_" ++ itemId, lm) :: c

/-- What one iteration of `process_drive_delta`'s item loop does. -/
structure DeltaStepResult where
  cache : Cache
  deletes : List String
  ingest : Option IngestEffects
deriving Repr

/-- One iteration of the item loop of `webhook_handler.process_drive_delta`
(lines 115-128): deletions go to `remove_file_from_index`; for a file item the
idempotency check gates ingestion, and `mark_as_processed` runs right after
`ingest_single_file` returns — unconditionally, because `ingest_single_file`
catches its own failures and returns `None` either way. -/
def process_delta_item (env : IngestEnv) (c : Cache) (driveId : String)
    (item : DeltaItem) : DeltaStepResult :=
  if item.deleted then
    { cache := c, deletes := env.existingDocIds, ingest := none }
  else if item.file then
    if is_already_processed c driveId item.id item.lastModifiedDateTime then
      { cache := c, deletes := [], ingest := none }
    else
      { cache := mark_as_processed c driveId item.id item.lastModifiedDateTime
        deletes := []
        ingest := some (ingest_single_file env driveId item.id) }
  else
    { cache := c, deletes := [], ingest := none }

/-- The inbound request as `handle_graph_webhook` sees it: optional
`validationToken` query parameter, whether the JSON body parses, and the
notification list under the body's `value` key. -/
structure Req where
  validationToken : Option PyStr
  bodyOk : Bool
  value : List Notification
deriving DecidableEq, Repr

/-- `webhook_handler.validate_webhook`: parse the body (an exception returns
`False`) and require every notification's `clientState` to equal the
configured secret. -/
def validate_webhook (secret : PyStr) (req : Req) : Bool :=
  if req.bodyOk then req.value.all (fun n => n.clientState == some secret) else false

/-- `webhook_handler.handle_graph_webhook` (lines 29-52).  A truthy
`validationToken` is echoed inside a JSON object `{"validationToken": ...}`
(the FastAPI handler returns a dict, serialized as JSON).  Otherwise the whole
batch is validated first; on failure a 401 is raised with no notification
dispatched, on success every notification is handed to background processing
(the returned list). -/
def handle_graph_webhook (secret : PyStr) (req : Req) : Resp × List Notification :=
  let vt := req.validationToken.getD []
  if vt ≠ [] then
    ({ status := 200, body := Body.jsonObj [(pys "validationToken", vt)] }, [])
  else if validate_webhook secret req then
    ({ status := 200, body := Body.jsonObj [(pys "status", pys "accepted")] }, req.value)
  else
    ({ status := 401, body := Body.text (pys "Unauthorized") }, [])

/-- `webhook_handler.process_drive_delta` performs exactly one GET on the
delta URL and iterates that single response's `value`; the response's
next-page link is never read.  Returns the items handed to the item loop. -/
def process_drive_delta (fetch : String → Option DeltaPage) (driveId : String) : List DeltaItem :=
  match fetch (delta_url driveId) with
  | some page => page.value
  | none => []

end WH

namespace Enh

/-- The default `WEBHOOK_CLIENT_STATE` of
`azure_function_webhook_enhanced.py` (line 20). -/
def WEBHOOK_CLIENT_STATE : PyStr := pys "docusense-webhook-secret"

/-- `azure_function_webhook_enhanced.validate_client_state` (lines 89-107):
falsy input → `None`; exact secret match → `"default"`; else the multi-tenant
shape `docusense-{tenantId}-webhook` is recognized by prefix/suffix tests and
the tenant id is the slice `client_state[10:-8]`, accepted only if non-empty. -/
def validate_client_state (secret : PyStr) (client_state : Option PyStr) : Option PyStr :=
  match client_state with
  | none => none
  | some s =>
    if s = [] then none
    else if s = secret then some (pys "default")
    else if (pys "docusense-").isPrefixOf s && (pys "-webhook").isSuffixOf s then
      let tid := (s.take (s.length - 8)).drop 10
      if tid ≠ [] then some tid else none
    else none

/-- The inbound request as the enhanced `main` sees it: optional
`validationToken` query parameter, whether `get_json()` succeeds, whether the
parsed body is truthy, and the list under its `value` key. -/
structure Req where
  validationToken : Option PyStr
  bodyJsonOk : Bool
  bodyTruthy : Bool
  value : List Notification
deriving DecidableEq, Repr

/-- The notification loop of the enhanced `main` (lines 60-77): each
notification is validated and, if valid, immediately dispatched to
`process_notification_sync` (accumulated with its resolved tenant id) before
the next one is examined; the first invalid `clientState` aborts with 401,
keeping the already-dispatched prefix. -/
def main_loop (secret : PyStr) :
    List Notification → List (Notification × PyStr) → Resp × List (Notification × PyStr)
  | [], acc =>
    ({ status := 200,
       body := Body.jsonObj
         [(pys "status", pys "accepted"), (pys "processed", pys (toString acc.length))] },
     acc)
  | n :: rest, acc =>
    match validate_client_state secret n.clientState with
    | none => ({ status := 401, body := Body.text (pys "Unauthorized") }, acc)
    | some t => main_loop secret rest (acc ++ [(n, t)])

/-- The enhanced `main` (lines 23-87): a truthy `validationToken` is echoed
back verbatim with status 200 and mimetype `text/plain`, processing nothing;
otherwise body-shape checks produce 400s and the notification loop runs.
The second component is the list of notifications dispatched to processing,
each with its resolved tenant id. -/
def main (secret : PyStr) (req : Req) : Resp × List (Notification × PyStr) :=
  let vt := req.validationToken.getD []
  if vt ≠ [] then ({ status := 200, body := Body.text vt }, [])
  else if !req.bodyJsonOk then ({ status := 400, body := Body.text (pys "Invalid JSON") }, [])
  else if !req.bodyTruthy then ({ status := 400, body := Body.text (pys "Empty body") }, [])
  else if req.value = [] then
    ({ status := 400, body := Body.text (pys "No notifications") }, [])
  else main_loop secret req.value []

/-- `azure_function_webhook_enhanced.is_already_processed` (lines 251-255):
tenant-scoped key, exact equality of stored and given timestamps. -/
def is_already_processed (c : Cache) (driveId itemId : String) (lm : Option String)
    (tenantId : String) : Bool :=
  cache_get c (tenantId ++ "_" ++ driveId ++ "_" ++ itemId) == lm

/-- `azure_function_webhook_enhanced.mark_as_processed` (lines 257-260). -/
def mark_as_processed (c : Cache) (driveId itemId : String) (lm : Option String)
    (tenantId : String) : Cache :=
  (tenantId ++ "_" ++ driveId ++ "_" ++ itemId, lm) :: c

/-- A search-index document as built by the enhanced `ingest_single_file`;
`last_modified` is the wall-clock `datetime.utcnow().isoformat()`, passed in
as `now`. -/
structure Doc where
  id : String
  title : PyStr
  content : PyStr
  chunk : Nat
  vector : EmbVec
  source_drive_id : String
  source_item_id : String
  tenant_id : String
  last_modified : String
deriving DecidableEq, Repr

/-- The chunk loop of the enhanced `ingest_single_file` (lines 291-311): one
document per chunk of the extracted content.  The per-chunk `except` (line
310) is unreachable because `embed_text` handles its own failures and returns
the mock embedding instead of raising, so a chunk whose embedding call fails
is still appended, carrying the fallback vector. -/
def build_docs (api : PyStr → Option EmbVec) (now : String)
    (tenantId driveId itemId : String) (fileName : PyStr) (content : PyStr) : List Doc :=
  (chunk_text content).map fun sc =>
    { id := tenantId ++ "_" ++ driveId ++ "_" ++ itemId ++ "_" ++ toString sc.2
      title := fileName
      content := sc.1
      chunk := sc.2
      vector := embed_text api sc.1
      source_drive_id := driveId
      source_item_id := itemId
      tenant_id := tenantId
      last_modified := now }

/-- Oracles for the enhanced `ingest_single_file`. -/
structure IngestEnv where
  downloadPath : Option String
  extractedText : PyStr
  existingDocIds : List String
  embedApi : PyStr → Option EmbVec
  uploadOk : Bool

/-- Observable effects of the enhanced `ingest_single_file`. -/
structure IngestEffects where
  tempCreated : Bool
  tempDeleted : Bool
  deletes : List String
  uploads : List Doc
  raised : Bool
deriving DecidableEq, Repr

/-- The enhanced `ingest_single_file` (lines 262-327).  Unlike the
`webhook_handler.py` version it wraps the body in `try/finally`, so the temp
file is removed on every exit path, including an `upload_documents` failure. -/
def ingest_single_file (env : IngestEnv) (now : String)
    (tenantId driveId itemId : String) (fileName : PyStr) : IngestEffects :=
  match env.downloadPath with
  | none =>
    { tempCreated := false, tempDeleted := false, deletes := [], uploads := [], raised := false }
  | some _ =>
    if pyStrip env.extractedText = [] then
      { tempCreated := true, tempDeleted := true, deletes := [], uploads := [], raised := false }
    else
      let dels := env.existingDocIds
      let docs := build_docs env.embedApi now tenantId driveId itemId fileName env.extractedText
      if docs ≠ [] then
        if env.uploadOk then
          { tempCreated := true, tempDeleted := true, deletes := dels,
            uploads := docs, raised := false }
        else
          { tempCreated := true, tempDeleted := true, deletes := dels,
            uploads := docs, raised := true }
      else
        { tempCreated := true, tempDeleted := true, deletes := dels,
          uploads := [], raised := false }

/-- The enhanced `process_drive_delta` (lines 137-175) performs exactly one
GET on the delta URL and iterates that single response's `value`; when
`@odata.nextLink` is present it only logs "consider implementing pagination"
and never fetches the next page.  Returns the items handed to
`process_single_item_change`. -/
def process_drive_delta (fetch : String → Option DeltaPage) (driveId : String) : List DeltaItem :=
  match fetch (delta_url driveId) with
  | some page => page.value
  | none => []

end Enh

namespace QP

/-- `queue_based_processor.should_use_queue_processing`: strictly more than
200MB goes to the queue. -/
def should_use_queue_processing (file_size : Nat) : Bool :=
  200 * 1024 * 1024 < file_size

/-- `queue_based_processor.MAX_QUEUE_FILE_SIZE` (1GB). -/
def MAX_QUEUE_FILE_SIZE : Nat := 1024 * 1024 * 1024

/-- `queue_based_processor.enqueue_large_file_processing`, reduced to its
decision structure: over the 1GB limit → warn and return `False`; otherwise
the outcome is that of the service-bus send (`busOk`). -/
def enqueue_large_file_processing (busOk : Bool) (file_size : Nat) : Bool :=
  if MAX_QUEUE_FILE_SIZE < file_size then false else busOk

end QP

namespace LF

/-- `large_file_handler.MAX_STANDARD_FILE_SIZE` (50MB). -/
def MAX_STANDARD_FILE_SIZE : Nat := 50 * 1024 * 1024

/-- `large_file_handler.MAX_LARGE_FILE_SIZE` (200MB). -/
def MAX_LARGE_FILE_SIZE : Nat := 200 * 1024 * 1024

/-- `large_file_handler.can_process_file_size`: `(can_process, method)` by
declared size, with inclusive 50MB / 200MB bounds. -/
def can_process_file_size (file_size : Nat) : Bool × String :=
  if file_size ≤ MAX_STANDARD_FILE_SIZE then (true, "standard")
  else if file_size ≤ MAX_LARGE_FILE_SIZE then (true, "streaming")
  else (false, "too_large")

/-- Oracles for one `process_large_file` run. -/
structure Env where
  streamDownloadOk : Bool
  extractedText : PyStr
  uploadOk : Bool

/-- `large_file_handler.stream_download_large_file`, reduced to its outcome:
a temp path on success, `None` on failure (its own failure paths remove the
temp file they created). -/
def stream_download_large_file (env : Env) : Option String :=
  if env.streamDownloadOk then some "/tmp/streamed" else none

/-- `large_file_handler.process_file_in_chunks`, reduced to its outcome:
empty extracted text → `False`; an `upload_documents` failure raises, is
caught, and yields `False`; otherwise `True`.  (Its index effects are not
needed by the properties below.) -/
def process_file_in_chunks (env : Env) : Bool :=
  if pyStrip env.extractedText = [] then false else env.uploadOk

/-- The result of one `process_large_file` run, with the temp-file
lifecycle. -/
structure Run where
  success : Bool
  tempCreated : Bool
  tempDeleted : Bool
deriving DecidableEq, Repr

/-- `large_file_handler.process_large_file` (lines 35-67): stream-download to
a temp file, process, and — in a `finally` block — remove the temp file on
every exit path. -/
def process_large_file (env : Env) : Run :=
  match stream_download_large_file env with
  | none => { success := false, tempCreated := false, tempDeleted := false }
  | some _ =>
    { success := process_file_in_chunks env, tempCreated := true, tempDeleted := true }

end LF

/-- The processing tier of an eligible file (spec §4.3). -/
inductive Tier where
  | standard
  | streaming
  | queued
  | tooLarge
deriving DecidableEq, Repr

namespace Enh

/-- The size dispatch of `process_single_item_change` (lines 204-218) combined
with the enqueue size check: `should_use_queue_processing` first (its enqueue
rejects above `MAX_QUEUE_FILE_SIZE`), then `can_process_file_size` selects
standard or streaming. -/
def size_tier (file_size : Nat) : Tier :=
  if QP.should_use_queue_processing file_size then
    if QP.MAX_QUEUE_FILE_SIZE < file_size then Tier.tooLarge else Tier.queued
  else
    match LF.can_process_file_size file_size with
    | (true, m) => if m = "streaming" then Tier.streaming else Tier.standard
    | (false, _) => Tier.tooLarge

end Enh

/-! ## Concrete test fixtures -/

/-- The Graph file info of the test file. -/
def reportInfo : WH.FileInfo :=
  { name := pys "report.pdf", lastModifiedDateTime := some "2024-05-01T10:00:00Z" }

/-- An ingest environment in which the Graph download fails
(`download_file` returns `None`); everything else is healthy. -/
def failEnv : WH.IngestEnv :=
  { fileInfo := some reportInfo
    downloadPath := none
    extractedText := []
    existingDocIds := []
    embedApi := fun _ => none
    uploadOk := true }

/-- An ingest environment in which download and extraction succeed but the
index upload (`upload_documents`) raises. -/
def leakEnv : WH.IngestEnv :=
  { fileInfo := some reportInfo
    downloadPath := some "/tmp/dl"
    extractedText := pys "hello world"
    existingDocIds := ["old1"]
    embedApi := fun _ => none
    uploadOk := false }

/-- An upsert delta record. -/
def upsertItem : DeltaItem :=
  { id := "item1", deleted := false, file := true,
    lastModifiedDateTime := some "2024-05-01T10:00:00Z" }

/-- A notification carrying the exact configured secret. -/
def goodNotif : Notification := { clientState := some (pys "docusense-webhook-secret") }

/-- A notification carrying an invalid client state. -/
def badNotif : Notification := { clientState := some (pys "wrong-state") }

/-- A batch with one valid notification followed by one invalid one, as the
enhanced Azure Function receives it. -/
def mixedBatchReqEnh : Enh.Req :=
  { validationToken := none, bodyJsonOk := true, bodyTruthy := true,
    value := [goodNotif, badNotif] }

/-- The same batch as the FastAPI endpoint receives it. -/
def mixedBatchReqWH : WH.Req :=
  { validationToken := none, bodyOk := true, value := [goodNotif, badNotif] }

/-- A subscription-validation handshake request (enhanced endpoint). -/
def handshakeReqEnh : Enh.Req :=
  { validationToken := some (pys "abc123"), bodyJsonOk := true, bodyTruthy := true,
    value := [badNotif] }

/-- A subscription-validation handshake request (FastAPI endpoint). -/
def handshakeReqWH : WH.Req :=
  { validationToken := some (pys "abc123"), bodyOk := true, value := [badNotif] }

/-- First and second page items of a two-page delta response. -/
def itemA : DeltaItem :=
  { id := "a", deleted := false, file := true, lastModifiedDateTime := some "t1" }

/-- Second-page delta item. -/
def itemB : DeltaItem :=
  { id := "b", deleted := false, file := true, lastModifiedDateTime := some "t2" }

/-- The next-page link of the first page. -/
def page2url : String :=
  "https://graph.microsoft.com/v1.0/drives/drive1/root/delta?token=page2"

/-- A delta server with two pages for drive1: page 1 carries `itemA` and a
next-page link, page 2 carries `itemB`. -/
def twoPageFetch : String → Option DeltaPage := fun url =>
  if url = delta_url "drive1" then some { value := [itemA], nextLink := some page2url }
  else if url = page2url then some { value := [itemB], nextLink := none }
  else none

/-- An embedding service that fails on every call. -/
def failingApi : PyStr → Option EmbVec := fun _ => none

/-! ## Helper lemmas: words, joins, and chunking -/

theorem takeWhile_append_of_all {p : Char → Bool} {l₁ : List Char} (l₂ : List Char)
    (h : ∀ a ∈ l₁, p a = true) : (l₁ ++ l₂).takeWhile p = l₁ ++ l₂.takeWhile p := by
  induction l₁ with
  | nil => simp
  | cons a l ih =>
    have ha : p a = true := h a (List.mem_cons_self a l)
    simp [List.takeWhile, ha, ih fun b hb => h b (List.mem_cons_of_mem a hb)]

theorem dropWhile_append_of_all {p : Char → Bool} {l₁ : List Char} (l₂ : List Char)
    (h : ∀ a ∈ l₁, p a = true) : (l₁ ++ l₂).dropWhile p = l₂.dropWhile p := by
  induction l₁ with
  | nil => simp
  | cons a l ih =>
    have ha : p a = true := h a (List.mem_cons_self a l)
    simp [List.dropWhile, ha, ih fun b hb => h b (List.mem_cons_of_mem a hb)]

theorem pySplit_good (s : PyStr) : GoodWords (pySplit s) := by
  induction s using pySplit.induct with
  | case1 => intro w hw; simp [pySplit] at hw
  | case2 c cs hc ih =>
    intro w hw
    rw [pySplit, if_pos hc] at hw
    exact ih w hw
  | case3 c cs hc ih =>
    intro w hw
    rw [pySplit, if_neg hc] at hw
    rcases List.mem_cons.mp hw with h | h
    · subst h
      refine ⟨by simp, ?_⟩
      intro d hd
      rcases List.mem_cons.mp hd with h | h
      · subst h; simpa using hc
      · have := List.mem_takeWhile_imp h
        simpa [notWS] using this
    · exact ih w h

theorem joinSpace_cons_cons (w x : PyStr) (ws : List PyStr) :
    joinSpace (w :: x :: ws) = w ++ ' ' :: joinSpace (x :: ws) := rfl

theorem joinSpace_ne_nil {ws : List PyStr} (hg : GoodWords ws) (hne : ws ≠ []) :
    joinSpace ws ≠ [] := by
  match ws with
  | [w] =>
    simpa [joinSpace] using (hg w (by simp)).1
  | w :: x :: ws =>
    have hw : w ≠ [] := (hg w (by simp)).1
    rw [joinSpace_cons_cons]
    intro h
    exact hw (List.append_eq_nil.mp h).1

theorem joinSpace_append {l₁ l₂ : List PyStr} (h₁ : l₁ ≠ []) (h₂ : l₂ ≠ []) :
    joinSpace (l₁ ++ l₂) = joinSpace l₁ ++ ' ' :: joinSpace l₂ := by
  induction l₁ with
  | nil => exact absurd rfl h₁
  | cons w l ih =>
    match l with
    | [] =>
      match l₂, h₂ with
      | x :: ws, _ => simp [joinSpace_cons_cons, joinSpace]
    | y :: l' =>
      have : (y :: l') ++ l₂ = y :: (l' ++ l₂) := rfl
      calc joinSpace ((w :: y :: l') ++ l₂)
          = w ++ ' ' :: joinSpace ((y :: l') ++ l₂) := by
            simp [List.cons_append, joinSpace_cons_cons]
        _ = w ++ ' ' :: (joinSpace (y :: l') ++ ' ' :: joinSpace l₂) := by
            rw [ih (by simp)]
        _ = joinSpace (w :: y :: l') ++ ' ' :: joinSpace l₂ := by
            simp [joinSpace_cons_cons]

theorem pySplit_joinSpace {ws : List PyStr} (hg : GoodWords ws) :
    pySplit (joinSpace ws) = ws := by
  induction ws with
  | nil => simp [joinSpace, pySplit]
  | cons w l ih =>
    have hw := hg w (by simp)
    have hl : GoodWords l := fun x hx => hg x (List.mem_cons_of_mem w hx)
    match w, hw with
    | c :: w', hw =>
      have hc : c.isWhitespace = false := hw.2 c (by simp)
      have hw' : ∀ a ∈ w', notWS a = true := fun a ha => by
        simp [notWS, hw.2 a (List.mem_cons_of_mem c ha)]
      match l with
      | [] =>
        have h1 : List.takeWhile notWS w' = w' := by
          have := takeWhile_append_of_all (p := notWS) (List.nil (α := Char)) hw'
          simpa using this
        have h2 : List.dropWhile notWS w' = [] := by
          have := dropWhile_append_of_all (p := notWS) (List.nil (α := Char)) hw'
          simpa using this
        simp [joinSpace, pySplit, hc, h1, h2]
      | x :: l' =>
        rw [joinSpace_cons_cons]
        have harr : (c :: w') ++ ' ' :: joinSpace (x :: l') =
            c :: (w' ++ ' ' :: joinSpace (x :: l')) := rfl
        rw [harr, pySplit, if_neg (by simp [hc])]
        have h1 : List.takeWhile notWS (w' ++ ' ' :: joinSpace (x :: l')) = w' := by
          rw [takeWhile_append_of_all _ hw']
          simp [List.takeWhile, notWS]
        have h2 : List.dropWhile notWS (w' ++ ' ' :: joinSpace (x :: l')) =
            ' ' :: joinSpace (x :: l') := by
          rw [dropWhile_append_of_all _ hw']
          simp [List.dropWhile, notWS]
        rw [h1, h2]
        have : pySplit (' ' :: joinSpace (x :: l')) = pySplit (joinSpace (x :: l')) := by
          rw [pySplit, if_pos (by decide)]
        rw [this, ih hl]

theorem pyStrip_ne_nil {s : PyStr} (h : ∃ c ∈ s, c.isWhitespace = false) :
    pyStrip s ≠ [] := by
  rcases h with ⟨c, hc, hcw⟩
  intro hnil
  unfold pyStrip at hnil
  rw [List.reverse_eq_nil_iff, List.dropWhile_eq_nil_iff] at hnil
  have hmem : c ∈ s.dropWhile Char.isWhitespace := by
    have hsplit := List.takeWhile_append_dropWhile (p := Char.isWhitespace) (l := s)
    have : c ∈ s.takeWhile Char.isWhitespace ∨ c ∈ s.dropWhile Char.isWhitespace := by
      rw [← List.mem_append, hsplit]; exact hc
    rcases this with h | h
    · exact absurd (List.mem_takeWhile_imp h) (by simp [hcw])
    · exact h
  have := hnil c (List.mem_reverse.mpr hmem)
  simp [hcw] at this

theorem goodWords_take {ws : List PyStr} (hg : GoodWords ws) (n : Nat) :
    GoodWords (ws.take n) := fun w hw => hg w (List.mem_of_mem_take hw)

theorem goodWords_drop {ws : List PyStr} (hg : GoodWords ws) (n : Nat) :
    GoodWords (ws.drop n) := fun w hw => hg w (List.mem_of_mem_drop hw)

theorem mem_joinSpace_head {c : Char} {w : PyStr} (t : List PyStr) (hc : c ∈ w) :
    c ∈ joinSpace (w :: t) := by
  cases t with
  | nil => simpa [joinSpace] using hc
  | cons x ts => rw [joinSpace_cons_cons]; exact List.mem_append.mpr (Or.inl hc)

theorem pyStrip_joinSpace_take_ne_nil {w : PyStr} {ws : List PyStr} (n : Nat)
    (hg : GoodWords (w :: ws)) : pyStrip (joinSpace (List.take (n + 1) (w :: ws))) ≠ [] := by
  have hw := hg w (by simp)
  obtain ⟨c, w', hww⟩ := List.exists_cons_of_ne_nil hw.1
  apply pyStrip_ne_nil
  refine ⟨c, ?_, hw.2 c (by rw [hww]; simp)⟩
  rw [List.take_succ_cons]
  exact mem_joinSpace_head _ (by rw [hww]; simp)

theorem chunkAux_spec (ws : List PyStr) (i : Nat) (hg : GoodWords ws) :
    joinSpace ((chunkAux ws i).map Prod.fst) = joinSpace ws ∧
    (∀ p ∈ chunkAux ws i, (pySplit p.1).length ≤ 300) ∧
    (chunkAux ws i).map Prod.snd =
      (List.range (chunkAux ws i).length).map (fun j => j + i / 300) := by
  induction ws, i using chunkAux.induct with
  | case1 i => simp [chunkAux]
  | case2 w ws i chunk hguard ih =>
    obtain ⟨ihj, ihb, ihs⟩ := ih (goodWords_drop hg 300)
    have hchunk : chunkAux (w :: ws) i =
        (joinSpace (List.take 300 (w :: ws)), i / 300) ::
          chunkAux (List.drop 300 (w :: ws)) (i + 300) := by
      rw [chunkAux]
      exact if_pos hguard
    refine ⟨?_, ?_, ?_⟩
    · rw [hchunk, List.map_cons]
      by_cases hd : List.drop 300 (w :: ws) = []
      · have hrest : chunkAux (List.drop 300 (w :: ws)) (i + 300) = [] := by
          rw [hd]; simp [chunkAux]
        have ht3 : List.take 300 (w :: ws) = w :: ws := by
          have h := List.take_append_drop 300 (w :: ws)
          rw [hd, List.append_nil] at h
          exact h
        rw [hrest, ht3]
        simp [joinSpace]
      · have hrestne : chunkAux (List.drop 300 (w :: ws)) (i + 300) ≠ [] := by
          intro h0
          rw [h0] at ihj
          exact joinSpace_ne_nil (goodWords_drop hg 300) hd
            (by simpa [joinSpace] using ihj.symm)
        have hmapne : (chunkAux (List.drop 300 (w :: ws)) (i + 300)).map Prod.fst ≠ [] := by
          simpa using hrestne
        have hone : ([joinSpace (List.take 300 (w :: ws))] : List PyStr) ≠ [] := by simp
        have hstep := joinSpace_append hone hmapne
        rw [List.singleton_append] at hstep
        rw [hstep]
        have hj1 : joinSpace [joinSpace (List.take 300 (w :: ws))] =
            joinSpace (List.take 300 (w :: ws)) := rfl
        rw [hj1, ihj, ← joinSpace_append (by simp) hd, List.take_append_drop]
    · rw [hchunk]
      intro p hp
      rcases List.mem_cons.mp hp with h | h
      · rw [h]
        rw [pySplit_joinSpace (goodWords_take hg 300)]
        have := List.length_take 300 (w :: ws)
        simp only [this]
        omega
      · exact ihb p h
    · rw [hchunk, List.map_cons, List.length_cons, ihs]
      have h300 : (i + 300) / 300 = i / 300 + 1 := Nat.add_div_right i (by norm_num)
      rw [h300, List.range_succ_eq_map, List.map_cons, List.map_map]
      refine congrArg₂ _ (by omega) ?_
      exact List.map_eq_map_iff.mpr fun j _ => by simp [Nat.succ_eq_add_one]; omega
  | case3 w ws i chunk hguard ih =>
    exfalso
    exact hguard (by
      have h := pyStrip_joinSpace_take_ne_nil 299 hg
      simpa using h)

theorem append_decomp {s pre suf : PyStr} (hp : pre <+: s) (hs : suf <:+ s)
    (hlen : pre.length + suf.length ≤ s.length) :
    s = pre ++ ((s.take (s.length - suf.length)).drop pre.length) ++ suf := by
  obtain ⟨a, ha⟩ := hp
  obtain ⟨b, hb⟩ := hs
  have hblen : b.length = s.length - suf.length := by
    have : s.length = b.length + suf.length := by rw [← hb, List.length_append]
    omega
  have htake : s.take (s.length - suf.length) = b := by
    rw [← hblen, ← hb, List.take_left]
  have hpreb : b.take pre.length = pre := by
    have h1 : s.take pre.length = pre := by rw [← ha, List.take_left]
    have h2 : s.take pre.length = b.take pre.length := by
      rw [← hb, List.take_append_eq_append_take]
      have : pre.length - b.length = 0 := by omega
      rw [this]
      simp
    rw [← h2, h1]
  calc s = b ++ suf := hb.symm
    _ = (b.take pre.length ++ b.drop pre.length) ++ suf := by rw [List.take_append_drop]
    _ = pre ++ b.drop pre.length ++ suf := by rw [hpreb]
    _ = pre ++ (s.take (s.length - suf.length)).drop pre.length ++ suf := by rw [htake]

/-! ## Claim theorems -/

/-- C6: for every input text, joining the produced chunks in order with single
spaces reproduces the whitespace-normalized input (the single-space join of
the input's `split()` words); every chunk holds at most 300 words; and the
chunk indices are exactly `0, 1, 2, ...` with no gaps. -/
theorem claim_C6_chunk_roundtrip (text : PyStr) :
    joinSpace ((chunk_text text).map Prod.fst) = joinSpace (pySplit text) ∧
    (∀ p ∈ chunk_text text, (pySplit p.1).length ≤ 300) ∧
    (chunk_text text).map Prod.snd = List.range (chunk_text text).length := by
  have h := chunkAux_spec (pySplit text) 0 (pySplit_good text)
  refine ⟨h.1, h.2.1, ?_⟩
  have h3 := h.2.2
  simpa [chunk_text] using h3

/-- Witness for C6: the membership hypothesis of the word-bound conjunct
discharged at a concrete input. -/
theorem claim_C6_chunk_roundtrip_witness :
    (pys "alpha beta", 0) ∈ chunk_text (pys "alpha beta") ∧
    (pySplit (pys "alpha beta")).length ≤ 300 := by
  have hmem : (pys "alpha beta", 0) ∈ chunk_text (pys "alpha beta") := by
    simp [chunk_text, chunkAux, pySplit, pys, notWS, joinSpace, pyStrip]
  exact ⟨hmem, (claim_C6_chunk_roundtrip (pys "alpha beta")).2.1 _ hmem⟩

/-- C10: `validate_client_state` returns `None`, or `"default"` for the exact
configured secret, or the non-empty tenant id extracted from a
`docusense-{tenantId}-webhook` token; it never returns an empty tenant id,
and under the default secret the malformed tokens `docusense--webhook` and
`docusense-webhook` are rejected. -/
theorem claim_C10_client_state_validation (secret s : PyStr) :
    (Enh.validate_client_state secret (some s) = none ∨
      (s = secret ∧ Enh.validate_client_state secret (some s) = some (pys "default")) ∨
      (∃ t, t ≠ [] ∧ s = pys "docusense-" ++ t ++ pys "-webhook" ∧
        Enh.validate_client_state secret (some s) = some t)) ∧
    (∀ r, Enh.validate_client_state secret (some s) = some r → r ≠ []) ∧
    (secret ≠ [] → s = secret →
      Enh.validate_client_state secret (some s) = some (pys "default")) ∧
    (∀ t, t ≠ [] → s = pys "docusense-" ++ t ++ pys "-webhook" → s ≠ secret →
      Enh.validate_client_state secret (some s) = some t) ∧
    Enh.validate_client_state Enh.WEBHOOK_CLIENT_STATE (some (pys "docusense--webhook")) = none ∧
    Enh.validate_client_state Enh.WEBHOOK_CLIENT_STATE (some (pys "docusense-webhook")) = none := by
  have hpre10 : (pys "docusense-").length = 10 := by decide
  have hsuf8 : (pys "-webhook").length = 8 := by decide
  refine ⟨?_, ?_, ?_, ?_, by decide, by decide⟩
  · by_cases h0 : s = []
    · left; simp [Enh.validate_client_state, h0]
    · by_cases h1 : s = secret
      · right; left
        refine ⟨h1, ?_⟩
        simp only [Enh.validate_client_state]
        rw [if_neg h0, if_pos h1]
      · by_cases h2 : ((pys "docusense-").isPrefixOf s && (pys "-webhook").isSuffixOf s) = true
        · by_cases h3 : (s.take (s.length - 8)).drop 10 = []
          · left
            simp [Enh.validate_client_state, h0, h1, h2, h3]
          · right; right
            refine ⟨(s.take (s.length - 8)).drop 10, h3, ?_,
              by simp [Enh.validate_client_state, h0, h1, h2, h3]⟩
            have hpre : pys "docusense-" <+: s :=
              List.isPrefixOf_iff_prefix.mp (by simpa using (Bool.and_elim_left h2))
            have hsuf : pys "-webhook" <:+ s :=
              List.isSuffixOf_iff_suffix.mp (by simpa using (Bool.and_elim_right h2))
            have hlen : (pys "docusense-").length + (pys "-webhook").length ≤ s.length := by
              rw [hpre10, hsuf8]
              by_contra hc
              push_neg at hc
              apply h3
              rw [List.drop_eq_nil_iff]
              have h' : (s.take (s.length - 8)).length = min (s.length - 8) s.length :=
                List.length_take _ _
              omega
            have hdec := append_decomp hpre hsuf hlen
            rw [hpre10, hsuf8] at hdec
            exact hdec
        · left
          simp only [Enh.validate_client_state, if_neg h0, if_neg h1]
          rw [if_neg (by simpa using h2)]
  · intro r hr
    simp only [Enh.validate_client_state] at hr
    by_cases h0 : s = []
    · simp [h0] at hr
    · rw [if_neg h0] at hr
      by_cases h1 : s = secret
      · rw [if_pos h1] at hr
        intro hre
        rw [hre] at hr
        exact absurd (Option.some.inj hr) (by decide)
      · rw [if_neg h1] at hr
        by_cases h2 : ((pys "docusense-").isPrefixOf s && (pys "-webhook").isSuffixOf s) = true
        · rw [if_pos h2] at hr
          by_cases h3 : (s.take (s.length - 8)).drop 10 = []
          · simp [h3] at hr
          · simp only [ne_eq, h3, not_false_eq_true, if_true] at hr
            intro hre
            exact h3 ((Option.some.inj hr).trans hre)
        · rw [if_neg h2] at hr
          exact absurd hr (by simp)
  · intro hsec h1
    simp [Enh.validate_client_state, h1, hsec]
  · intro t ht hst hne
    have hsne : s ≠ [] := by
      rw [hst]
      simp [pys]
    have hlen : s.length = 10 + t.length + 8 := by
      rw [hst]
      simp only [List.length_append, hpre10, hsuf8]
      try omega
    have htake : s.take (s.length - 8) = pys "docusense-" ++ t := by
      have h1 : s = (pys "docusense-" ++ t) ++ pys "-webhook" := by
        rw [hst, List.append_assoc]
      have h2 : s.length - 8 = (pys "docusense-" ++ t).length := by
        rw [List.length_append, hpre10]
        omega
      rw [h2, h1, List.take_left]
    have hdrop : (s.take (s.length - 8)).drop 10 = t := by
      rw [htake]
      have : (10 : Nat) = (pys "docusense-").length := hpre10.symm
      rw [this, List.drop_left]
    have hpfx : (pys "docusense-").isPrefixOf s = true :=
      List.isPrefixOf_iff_prefix.mpr ⟨t ++ pys "-webhook", by rw [hst, List.append_assoc]⟩
    have hsuffix : (pys "-webhook").isSuffixOf s = true :=
      List.isSuffixOf_iff_suffix.mpr ⟨pys "docusense-" ++ t, by rw [hst, List.append_assoc]⟩
    simp only [Enh.validate_client_state, if_neg hsne, if_neg hne]
    rw [if_pos (by simp [hpfx, hsuffix])]
    simp only [hdrop, ne_eq, ht, not_false_eq_true, if_true]

/-- Witness for C10: the hypotheses discharged at the default secret and a
well-formed multi-tenant token. -/
theorem claim_C10_client_state_validation_witness :
    Enh.validate_client_state Enh.WEBHOOK_CLIENT_STATE
      (some (pys "docusense-acme-webhook")) = some (pys "acme") := by
  have h := (claim_C10_client_state_validation Enh.WEBHOOK_CLIENT_STATE
    (pys "docusense-acme-webhook")).2.2.2.1 (pys "acme") (by decide) (by decide) (by decide)
  exact h

theorem chunk_text_hello_world : chunk_text (pys "hello world") = [(pys "hello world", 0)] := by
  simp [chunk_text, chunkAux, pySplit, pys, notWS, joinSpace, pyStrip]

theorem chunk_text_hello : chunk_text (pys "hello") = [(pys "hello", 0)] := by
  simp [chunk_text, chunkAux, pySplit, pys, notWS, joinSpace, pyStrip]

/-- C1 (code bug): in `webhook_handler.process_drive_delta`, an upsert record
whose download fails is still marked processed: `ingest_single_file` swallows
the failure and `mark_as_processed` runs unconditionally afterwards, so the
tracker records the record's timestamp (with zero index writes having
happened) and the next delta cycle skips the item. -/
theorem claim_C1_marked_processed_despite_failure :
    (WH.process_delta_item failEnv [] "drive1" upsertItem).ingest = some WH.noEffects ∧
    WH.noEffects.uploads = [] ∧
    cache_get (WH.process_delta_item failEnv [] "drive1" upsertItem).cache "drive1_item1" =
      some "2024-05-01T10:00:00Z" ∧
    WH.is_already_processed (WH.process_delta_item failEnv [] "drive1" upsertItem).cache
      "drive1" "item1" (some "2024-05-01T10:00:00Z") = true := by
  refine ⟨?_, rfl, ?_, ?_⟩ <;>
    simp [WH.process_delta_item, WH.is_already_processed, WH.mark_as_processed,
      WH.ingest_single_file, failEnv, upsertItem, cache_get, WH.supported_extensions,
      py_splitext_ext, lastDotAux, pyLower, pys]

/-- C2: an upsert record whose `(drive, item)` key is stored with exactly the
record's `lastModifiedDateTime` is skipped with zero index writes and an
unchanged tracker; any other stored value (even an older timestamp) makes the
check fail and the record is reprocessed; the enhanced tenant-scoped check is
likewise exact string equality. -/
theorem claim_C2_idempotent_skip_exact_equality
    (env : WH.IngestEnv) (c : Cache) (driveId : String) (item : DeltaItem) (lm : String)
    (hdel : item.deleted = false) (hfile : item.file = true)
    (hlm : item.lastModifiedDateTime = some lm) :
    (cache_get c (driveId ++ "_" ++ item.id) = some lm →
      WH.process_delta_item env c driveId item =
        { cache := c, deletes := [], ingest := none }) ∧
    (cache_get c (driveId ++ "_" ++ item.id) ≠ some lm →
      WH.process_delta_item env c driveId item =
        { cache := WH.mark_as_processed c driveId item.id (some lm)
          deletes := []
          ingest := some (WH.ingest_single_file env driveId item.id) }) ∧
    (∀ tenantId v, cache_get c (tenantId ++ "_" ++ driveId ++ "_" ++ item.id) = some v →
      (Enh.is_already_processed c driveId item.id (some lm) tenantId = true ↔ v = lm)) := by
  refine ⟨?_, ?_, ?_⟩
  · intro h
    simp [WH.process_delta_item, hdel, hfile, WH.is_already_processed, hlm, h]
  · intro h
    have hb : WH.is_already_processed c driveId item.id (some lm) = false := by
      simp only [WH.is_already_processed, beq_eq_false_iff_ne, ne_eq]
      exact h
    simp [WH.process_delta_item, hdel, hfile, hlm, hb]
  · intro tenantId v hv
    simp [Enh.is_already_processed, hv]

/-- Witness for C2: the skip branch at a concrete cache and record. -/
theorem claim_C2_idempotent_skip_exact_equality_witness :
    WH.process_delta_item failEnv [("drive1_item1", some "2024-05-01T10:00:00Z")]
      "drive1" upsertItem =
      { cache := [("drive1_item1", some "2024-05-01T10:00:00Z")],
        deletes := [], ingest := none } := by
  exact (claim_C2_idempotent_skip_exact_equality failEnv
    [("drive1_item1", some "2024-05-01T10:00:00Z")] "drive1" upsertItem
    "2024-05-01T10:00:00Z" rfl rfl rfl).1 (by decide)

/-- C3 (code bug): in the enhanced `main`, a batch `[valid, invalid]` is
rejected with 401, but the valid notification has already been dispatched to
processing before the invalid one is examined — the dispatched list is
non-empty, contradicting "no notification in the batch is processed".  The
FastAPI handler (`webhook_handler.validate_webhook`) validates the whole batch
first and dispatches nothing. -/
theorem claim_C3_valid_notification_processed_before_reject :
    Enh.main Enh.WEBHOOK_CLIENT_STATE mixedBatchReqEnh =
      ({ status := 401, body := Body.text (pys "Unauthorized") },
        [(goodNotif, pys "default")]) ∧
    [(goodNotif, pys "default")] ≠ ([] : List (Notification × PyStr)) ∧
    WH.handle_graph_webhook Enh.WEBHOOK_CLIENT_STATE mixedBatchReqWH =
      ({ status := 401, body := Body.text (pys "Unauthorized") }, []) := by
  refine ⟨?_, by simp, ?_⟩ <;> decide

/-- C4 (code bug): with a two-page delta response, both delta resolvers
process only the first page's items; the full change set demanded by the spec
(following the next-page link until absent) also contains the second page's
item. -/
theorem claim_C4_pagination_not_followed :
    Enh.process_drive_delta twoPageFetch "drive1" = [itemA] ∧
    WH.process_drive_delta twoPageFetch "drive1" = [itemA] ∧
    spec_delta_change_set twoPageFetch 2 (delta_url "drive1") = [itemA, itemB] ∧
    Enh.process_drive_delta twoPageFetch "drive1" ≠
      spec_delta_change_set twoPageFetch 2 (delta_url "drive1") := by
  refine ⟨?_, ?_, ?_, ?_⟩ <;> decide

/-- Counterexample for C5: with the embedding service failing on the only
chunk, the chunk is NOT dropped — a document for it is still built (and hence
uploaded), carrying the fallback mock embedding. -/
theorem claim_C5_failed_embedding_chunk_still_indexed :
    Enh.build_docs failingApi "2024-05-01T10:00:00Z" "tenant1" "drive1" "item1"
      (pys "report.pdf") (pys "hello world") =
      [{ id := "tenant1_drive1_item1_0", title := pys "report.pdf",
         content := pys "hello world", chunk := 0, vector := mock_embedding,
         source_drive_id := "drive1", source_item_id := "item1",
         tenant_id := "tenant1", last_modified := "2024-05-01T10:00:00Z" }] ∧
    (Enh.build_docs failingApi "2024-05-01T10:00:00Z" "tenant1" "drive1" "item1"
      (pys "report.pdf") (pys "hello world")).length ≠ 0 := by
  constructor
  · rw [Enh.build_docs, chunk_text_hello_world]
    rfl
  · rw [Enh.build_docs, chunk_text_hello_world]
    simp

/-- C5 as amended: a chunk whose embedding call fails is logged and still
indexed with the fixed fallback mock embedding in place of a service vector;
no chunk is dropped, and the remaining chunks are embedded normally. -/
theorem claim_C5_amended_failed_chunk_gets_mock_embedding
    (api : PyStr → Option EmbVec) (now : String) (tenantId driveId itemId : String)
    (fileName : PyStr) (content : PyStr) :
    (Enh.build_docs api now tenantId driveId itemId fileName content).length =
      (chunk_text content).length ∧
    (∀ p ∈ chunk_text content,
      ∃ d ∈ Enh.build_docs api now tenantId driveId itemId fileName content,
        d.chunk = p.2 ∧ d.content = p.1 ∧ d.vector = embed_text api p.1 ∧
        (api p.1 = none → d.vector = mock_embedding)) := by
  constructor
  · simp [Enh.build_docs]
  · intro p hp
    refine ⟨_, List.mem_map_of_mem _ hp, rfl, rfl, rfl, ?_⟩
    intro hnone
    simp [embed_text, hnone]

/-- Witness for C5 as amended: the membership hypothesis discharged at a
concrete one-chunk input with a failing embedding service. -/
theorem claim_C5_amended_failed_chunk_gets_mock_embedding_witness :
    (pys "hello", 0) ∈ chunk_text (pys "hello") ∧
    ∃ d ∈ Enh.build_docs failingApi "now" "t1" "d1" "i1" (pys "f.pdf") (pys "hello"),
      d.chunk = 0 ∧ d.content = pys "hello" ∧
      d.vector = embed_text failingApi (pys "hello") ∧
      (failingApi (pys "hello") = none → d.vector = mock_embedding) := by
  have hmem : (pys "hello", 0) ∈ chunk_text (pys "hello") := by
    rw [chunk_text_hello]
    simp
  exact ⟨hmem, (claim_C5_amended_failed_chunk_gets_mock_embedding failingApi "now"
    "t1" "d1" "i1" (pys "f.pdf") (pys "hello")).2 _ hmem⟩

/-- C7: the size dispatch has exactly the claimed boundaries: ≤ 50MB standard,
50MB+1..200MB streaming, 200MB+1..1GB queued, above 1GB ineligible. -/
theorem claim_C7_size_tier_boundaries (file_size : Nat) :
    (file_size ≤ 50 * 1024 * 1024 → Enh.size_tier file_size = Tier.standard) ∧
    (50 * 1024 * 1024 < file_size → file_size ≤ 200 * 1024 * 1024 →
      Enh.size_tier file_size = Tier.streaming) ∧
    (200 * 1024 * 1024 < file_size → file_size ≤ 1024 * 1024 * 1024 →
      Enh.size_tier file_size = Tier.queued) ∧
    (1024 * 1024 * 1024 < file_size → Enh.size_tier file_size = Tier.tooLarge) := by
  have hq : ∀ h : ¬ 200 * 1024 * 1024 < file_size,
      QP.should_use_queue_processing file_size = false := by
    intro h
    simp [QP.should_use_queue_processing]
    omega
  refine ⟨fun h => ?_, fun h1 h2 => ?_, fun h1 h2 => ?_, fun h => ?_⟩
  · have h1 := hq (by omega)
    have h2 : LF.can_process_file_size file_size = (true, "standard") := by
      unfold LF.can_process_file_size LF.MAX_STANDARD_FILE_SIZE
      rw [if_pos (by omega)]
    simp [Enh.size_tier, h1, h2]
  · have hqf := hq (by omega)
    have h3 : LF.can_process_file_size file_size = (true, "streaming") := by
      unfold LF.can_process_file_size LF.MAX_STANDARD_FILE_SIZE LF.MAX_LARGE_FILE_SIZE
      rw [if_neg (by omega), if_pos (by omega)]
    simp [Enh.size_tier, hqf, h3]
  · have hqt : QP.should_use_queue_processing file_size = true := by
      simp [QP.should_use_queue_processing]
      omega
    simp [Enh.size_tier, hqt, QP.MAX_QUEUE_FILE_SIZE]
    omega
  · have hqt : QP.should_use_queue_processing file_size = true := by
      simp [QP.should_use_queue_processing]
      omega
    simp [Enh.size_tier, hqt, QP.MAX_QUEUE_FILE_SIZE]
    omega

/-- Witness for C7: every boundary hypothesis discharged at its boundary
value. -/
theorem claim_C7_size_tier_boundaries_witness :
    Enh.size_tier (50 * 1024 * 1024) = Tier.standard ∧
    Enh.size_tier (50 * 1024 * 1024 + 1) = Tier.streaming ∧
    Enh.size_tier (200 * 1024 * 1024 + 1) = Tier.queued ∧
    Enh.size_tier (1024 * 1024 * 1024 + 1) = Tier.tooLarge :=
  ⟨(claim_C7_size_tier_boundaries _).1 (by norm_num),
    (claim_C7_size_tier_boundaries _).2.1 (by norm_num) (by norm_num),
    (claim_C7_size_tier_boundaries _).2.2.1 (by norm_num) (by norm_num),
    (claim_C7_size_tier_boundaries _).2.2.2 (by norm_num)⟩

/-- C8 (code bug): when the index upload raises in
`webhook_handler.ingest_single_file`, the temp file is created but never
unlinked (there is no `finally`), contradicting guaranteed cleanup on every
exit path; `large_file_handler.process_large_file`, by contrast, deletes its
temp file exactly when it created one. -/
theorem claim_C8_temp_file_leak_on_index_write_failure :
    (WH.ingest_single_file leakEnv "drive1" "item1").tempCreated = true ∧
    (WH.ingest_single_file leakEnv "drive1" "item1").tempDeleted = false ∧
    (WH.ingest_single_file leakEnv "drive1" "item1").uploads ≠ [] ∧
    (WH.ingest_single_file leakEnv "drive1" "item1").raised = true ∧
    (∀ env : LF.Env,
      (LF.process_large_file env).tempDeleted = (LF.process_large_file env).tempCreated) := by
  have hdocs : WH.build_docs (fun _ => none) "drive1" "item1" (pys "report.pdf")
      (some "2024-05-01T10:00:00Z") (pys "hello world") ≠ [] := by
    rw [WH.build_docs, chunk_text_hello_world]
    simp
  have heval : WH.ingest_single_file leakEnv "drive1" "item1" =
      { tempCreated := true, tempDeleted := false, deletes := ["old1"],
        uploads := WH.build_docs (fun _ => none) "drive1" "item1" (pys "report.pdf")
          (some "2024-05-01T10:00:00Z") (pys "hello world"),
        raised := true } := by
    simp only [WH.ingest_single_file, leakEnv, reportInfo]
    rw [if_pos hdocs]
    norm_num
    rw [if_pos (by decide), if_neg (by decide)]
  refine ⟨by rw [heval], by rw [heval], by rw [heval]; exact hdocs, by rw [heval], ?_⟩
  intro env
  by_cases h : env.streamDownloadOk
  · simp [LF.process_large_file, LF.stream_download_large_file, h]
  · simp [LF.process_large_file, LF.stream_download_large_file, h]

/-- C9 (code bug): the enhanced endpoint answers a handshake with HTTP 200
and the token echoed verbatim as plain text, processing nothing; the FastAPI
endpoint instead returns the token wrapped in a JSON object, which is not the
plain-text echo the claim describes. -/
theorem claim_C9_handshake_echo :
    Enh.main Enh.WEBHOOK_CLIENT_STATE handshakeReqEnh =
      ({ status := 200, body := Body.text (pys "abc123") }, []) ∧
    WH.handle_graph_webhook Enh.WEBHOOK_CLIENT_STATE handshakeReqWH =
      ({ status := 200, body := Body.jsonObj [(pys "validationToken", pys "abc123")] }, []) ∧
    Body.jsonObj [(pys "validationToken", pys "abc123")] ≠ Body.text (pys "abc123") := by
  refine ⟨?_, ?_, ?_⟩ <;> decide

end DocuSense
